import Mathlib

/-!
Verification of the regrada-demo core (trace proxy and comparison engine).

Shallow embedding of the Go sources `cmd/trace.go` (interception proxy,
redaction, body sanitization, provider parsing) and the eval comparison
logic (`compareWithBaselineResults`, `runEvals`), together with theorems
settling the specification's testable properties.

Modelling conventions, stated once:
* Go byte slices for HTTP bodies are modelled as Lean `String`s (sequences
  of Unicode scalar values) throughout the proxy model; body sanitization
  is additionally modelled at byte granularity (`sanitizeBodyBytes`,
  bytes as `Nat`), because `encoding/json` coerces invalid UTF-8 to the
  replacement escape and that behaviour is invisible at `String` level.
* JSON values decoded by `encoding/json.Unmarshal` into `interface{}` are
  modelled by the inductive `Json` below; JSON numbers are modelled as
  integers (the only numeric fields the program reads are token counts,
  which Go converts to `int`).  The library parser itself is abstracted as
  an oracle `jsonParse : String → Option Json` (`none` models an
  `Unmarshal` error), and gzip decompression as an oracle
  `gunzip : String → Option String` (`none` models `gzip.NewReader`
  failing on an invalid stream).
* Wall-clock identifiers and timestamps (`generateTraceID`, `time.Now`)
  carry no logic and are omitted from the trace model.
-/

namespace Regrada

/-- Model of a decoded JSON value (the result of `json.Unmarshal` into
`interface{}` in Go).  Objects are association lists of fields; Go maps
cannot hold duplicate keys, and duplicate keys never arise from
`Unmarshal`, so lookup by first match is adequate. -/
inductive Json where
  | null : Json
  | bool (b : Bool) : Json
  | num (n : Int) : Json
  | str (s : String) : Json
  | arr (elems : List Json) : Json
  | obj (fields : List (String × Json)) : Json

/-- Field lookup in a decoded JSON object, i.e. `m[key]` on a Go map. -/
def jLookup (fields : List (String × Json)) (key : String) : Option Json :=
  (fields.find? (fun f => f.1 == key)).map (fun f => f.2)

/-- `m[key].(map[string]interface{})`-style view: a decoded value is usable
as a `map[string]interface{}` only when it is a JSON object; every other
shape (or a failed parse) behaves as the empty/nil map. -/
def asObj : Option Json → List (String × Json)
  | some (Json.obj fields) => fields
  | _ => []

/-- `getString` from `cmd/trace.go`: `m[key].(string)`, defaulting to `""`. -/
def getString (fields : List (String × Json)) (key : String) : String :=
  match jLookup fields key with
  | some (Json.str s) => s
  | _ => ""

/-- `m[key].(float64)` followed by conversion to `int`, defaulting to 0;
numbers are modelled as integers. -/
def getNum (fields : List (String × Json)) (key : String) : Int :=
  match jLookup fields key with
  | some (Json.num n) => n
  | _ => 0

/-! ## Eval data model and comparison engine (`run.go` part of trace.go) -/

/-- `CheckResult` from the source. -/
structure CheckResult where
  check : String
  passed : Bool
  message : String := ""
deriving DecidableEq, Repr

/-- `TestResult` from the source.  `status` is one of
`"passed"`, `"failed"`, `"error"`; `duration` is milliseconds. -/
structure TestResult where
  name : String
  status : String
  duration : Int := 0
  checkResults : List CheckResult := []
  error : String := ""
  regression : Bool := false
deriving DecidableEq, Repr

/-- Building `map[string]TestResult` by `m[tr.Name] = tr` over the list:
the last occurrence of a name wins.  `lookupLast rs n` is `m[n]`. -/
def lookupLast (rs : List TestResult) (n : String) : Option TestResult :=
  match rs with
  | [] => none
  | r :: rest =>
    match lookupLast rest n with
    | some x => some x
    | none => if r.name == n then some r else none

/-- The key set of the name-indexed map: each distinct test name once.
(Go iterates map keys in unspecified order; the model fixes an order,
which affects neither membership nor count.) -/
def namesOf (rs : List TestResult) : List String :=
  (rs.map (fun r => r.name)).dedup

/-- `BaselineComparison` from the source.  `BaselineDate` (copied from the
baseline's timestamp) and `BehaviorChanges` (never populated) are
omitted. -/
structure BaselineComparison where
  newFailures : List String := []
  newPasses : List String := []
  addedTests : List String := []
  removedTests : List String := []
deriving DecidableEq, Repr

/-- `compareWithBaselineResults` from the source, after both result files
have been deserialized: index both lists by name (last write wins), then
for every name in the current map classify against the baseline map, and
report baseline names absent from the current map as removed.  The Go
loop over the current map builds the first three lists in one pass; the
filters below produce the same members with the same multiplicity. -/
def compareWithBaselineResults (baseline current : List TestResult) :
    BaselineComparison :=
  { newFailures := (namesOf current).filter (fun n =>
      match lookupLast baseline n, lookupLast current n with
      | some br, some cr => br.status == "passed" && cr.status == "failed"
      | _, _ => false)
    newPasses := (namesOf current).filter (fun n =>
      match lookupLast baseline n, lookupLast current n with
      | some br, some cr => br.status == "failed" && cr.status == "passed"
      | _, _ => false)
    addedTests := (namesOf current).filter (fun n =>
      (lookupLast baseline n).isNone)
    removedTests := (namesOf baseline).filter (fun n =>
      (lookupLast current n).isNone) }

/-- A name is in the map exactly when it names some result in the list. -/
theorem lookupLast_isSome_iff (rs : List TestResult) (n : String) :
    (lookupLast rs n).isSome = true ↔ n ∈ rs.map (fun r => r.name) := by
  induction rs with
  | nil => simp [lookupLast]
  | cons r rest ih =>
    simp only [lookupLast, List.map_cons, List.mem_cons]
    cases h : lookupLast rest n with
    | some x =>
      simp only [Option.isSome_some, true_iff]
      right
      rw [← ih, h]
      rfl
    | none =>
      rw [h] at ih
      simp only [Option.isSome_none, Bool.false_eq_true, false_iff] at ih
      constructor
      · intro hs
        by_cases hb : r.name == n
        · left; exact (beq_iff_eq.mp hb).symm
        · simp [hb] at hs
      · intro hm
        rcases hm with hm | hm
        · simp [hm]
        · exact absurd hm ih

theorem mem_namesOf_iff (rs : List TestResult) (n : String) :
    n ∈ namesOf rs ↔ (lookupLast rs n).isSome = true := by
  rw [namesOf, List.mem_dedup, lookupLast_isSome_iff]

theorem lookupLast_eq_none_iff (rs : List TestResult) (n : String) :
    lookupLast rs n = none ↔ n ∉ namesOf rs := by
  rw [mem_namesOf_iff]
  cases h : lookupLast rs n <;> simp [h]

/-- Membership in one of the two status-transition lists of the
comparison, characterized by the indexed statuses. -/
theorem mem_statusFilter_iff (b c : List TestResult) (s1 s2 n : String) :
    (n ∈ (namesOf c).filter (fun n =>
        match lookupLast b n, lookupLast c n with
        | some br, some cr => br.status == s1 && cr.status == s2
        | _, _ => false)) ↔
      ∃ br cr, lookupLast b n = some br ∧ lookupLast c n = some cr ∧
        br.status = s1 ∧ cr.status = s2 := by
  rw [List.mem_filter]
  constructor
  · rintro ⟨hmem, hp⟩
    cases hb : lookupLast b n with
    | none => rw [hb] at hp; simp at hp
    | some br =>
      cases hc : lookupLast c n with
      | none => rw [hb, hc] at hp; simp at hp
      | some cr =>
        rw [hb, hc] at hp
        simp only [Bool.and_eq_true, beq_iff_eq] at hp
        exact ⟨br, cr, rfl, rfl, hp.1, hp.2⟩
  · rintro ⟨br, cr, hb, hc, hbs, hcs⟩
    refine ⟨(mem_namesOf_iff c n).mpr (by rw [hc]; rfl), ?_⟩
    rw [hb, hc]
    simp [hbs, hcs]

theorem mem_newFailures_iff (baseline current : List TestResult) (n : String) :
    n ∈ (compareWithBaselineResults baseline current).newFailures ↔
      ∃ br cr, lookupLast baseline n = some br ∧ lookupLast current n = some cr ∧
        br.status = "passed" ∧ cr.status = "failed" :=
  mem_statusFilter_iff baseline current "passed" "failed" n

theorem mem_newPasses_iff (baseline current : List TestResult) (n : String) :
    n ∈ (compareWithBaselineResults baseline current).newPasses ↔
      ∃ br cr, lookupLast baseline n = some br ∧ lookupLast current n = some cr ∧
        br.status = "failed" ∧ cr.status = "passed" :=
  mem_statusFilter_iff baseline current "failed" "passed" n

theorem mem_addedTests_iff (baseline current : List TestResult) (n : String) :
    n ∈ (compareWithBaselineResults baseline current).addedTests ↔
      n ∈ namesOf current ∧ n ∉ namesOf baseline := by
  show n ∈ (namesOf current).filter (fun n => (lookupLast baseline n).isNone) ↔ _
  rw [List.mem_filter]
  simp only [Option.isNone_iff_eq_none]
  rw [lookupLast_eq_none_iff]

theorem mem_removedTests_iff (baseline current : List TestResult) (n : String) :
    n ∈ (compareWithBaselineResults baseline current).removedTests ↔
      n ∈ namesOf baseline ∧ n ∉ namesOf current := by
  show n ∈ (namesOf baseline).filter (fun n => (lookupLast current n).isNone) ↔ _
  rw [List.mem_filter]
  simp only [Option.isNone_iff_eq_none]
  rw [lookupLast_eq_none_iff]

/-- Claim C1 (amended): full membership characterization of the four
classification lists of `compareWithBaselineResults`.  A name is added
iff it is a current name absent from the baseline, removed iff a
baseline name absent from the current run; it is a new failure iff the
indexed statuses move `passed → failed` and a new pass iff they move
`failed → passed`.  In particular a name present in both lists with
equal statuses appears in none of the four lists, and a differing pair
that involves a status outside {passed, failed} (such as `error`)
appears in neither new failures nor new passes. -/
theorem compare_classification (baseline current : List TestResult) (n : String) :
    (n ∈ (compareWithBaselineResults baseline current).addedTests ↔
      n ∈ namesOf current ∧ n ∉ namesOf baseline)
    ∧ (n ∈ (compareWithBaselineResults baseline current).removedTests ↔
      n ∈ namesOf baseline ∧ n ∉ namesOf current)
    ∧ (n ∈ (compareWithBaselineResults baseline current).newFailures ↔
      ∃ br cr, lookupLast baseline n = some br ∧ lookupLast current n = some cr ∧
        br.status = "passed" ∧ cr.status = "failed")
    ∧ (n ∈ (compareWithBaselineResults baseline current).newPasses ↔
      ∃ br cr, lookupLast baseline n = some br ∧ lookupLast current n = some cr ∧
        br.status = "failed" ∧ cr.status = "passed") :=
  ⟨mem_addedTests_iff baseline current n, mem_removedTests_iff baseline current n,
    mem_newFailures_iff baseline current n, mem_newPasses_iff baseline current n⟩

/-- Claim C1, counterexample to the claim as stated: with baseline
status `passed` and current status `error` the name `A` has differing
statuses in the two runs, yet appears in neither the new-failures nor
the new-passes list. -/
theorem compare_differing_status_not_classified :
    lookupLast [{ name := "A", status := "passed" }] "A" =
      some { name := "A", status := "passed" }
    ∧ lookupLast [{ name := "A", status := "error" }] "A" =
      some { name := "A", status := "error" }
    ∧ ("passed" : String) ≠ "error"
    ∧ (compareWithBaselineResults [{ name := "A", status := "passed" }]
        [{ name := "A", status := "error" }]).newFailures = []
    ∧ (compareWithBaselineResults [{ name := "A", status := "passed" }]
        [{ name := "A", status := "error" }]).newPasses = [] := by
  refine ⟨rfl, rfl, by decide, rfl, rfl⟩

theorem statusFilter_self_nil (rs : List TestResult) (s1 s2 : String) (hne : s1 ≠ s2)
    (n : String)
    (h : ∃ br cr, lookupLast rs n = some br ∧ lookupLast rs n = some cr ∧
      br.status = s1 ∧ cr.status = s2) : False := by
  rcases h with ⟨br, cr, hb, hc, h1, h2⟩
  rw [hb] at hc
  cases Option.some.inj hc
  rw [h1] at h2
  exact hne h2

/-- Claim C6: comparing a result set against itself yields zero
new failures (regressions), zero new passes, and empty added-tests and
removed-tests sets. -/
theorem compare_self_empty (rs : List TestResult) :
    (compareWithBaselineResults rs rs).newFailures = []
    ∧ (compareWithBaselineResults rs rs).newPasses = []
    ∧ (compareWithBaselineResults rs rs).addedTests = []
    ∧ (compareWithBaselineResults rs rs).removedTests = [] := by
  refine ⟨?_, ?_, ?_, ?_⟩ <;> rw [List.eq_nil_iff_forall_not_mem] <;> intro n hn
  · exact statusFilter_self_nil rs "passed" "failed" (by decide) n
      ((mem_newFailures_iff rs rs n).mp hn)
  · exact statusFilter_self_nil rs "failed" "passed" (by decide) n
      ((mem_newPasses_iff rs rs n).mp hn)
  · rcases (mem_addedTests_iff rs rs n).mp hn with ⟨h1, h2⟩
    exact h2 h1
  · rcases (mem_removedTests_iff rs rs n).mp hn with ⟨h1, h2⟩
    exact h2 h1

/-! ## CI exit code (`runEvals`) -/

/-- Outcome of an eval run, as far as the CI exit-code contract is
concerned: the pass/fail tally, the regression count, and the process
exit code returned by `runEvals`. -/
structure EvalOutcome where
  passed : Nat
  failed : Nat
  regressions : Nat
  exitCode : Nat
deriving DecidableEq, Repr

/-- The tally loop of `runEvals`: a result with status `"passed"`
increments `Passed`, any other status increments `Failed`. -/
def tallyResults (rs : List TestResult) : Nat × Nat :=
  rs.foldl
    (fun acc r => if r.status = "passed" then (acc.1 + 1, acc.2) else (acc.1, acc.2 + 1))
    (0, 0)

/-- The decision core of `runEvals` after the individual tests have run:
tally pass/fail, set `Regressions` to the length of the comparison's
new-failures list when a baseline file was readable, and in CI mode
return exit code 1 when any test failed or any regression was detected,
else 0.  (Result-file writing and rendering are side effects with no
bearing on the exit code and are omitted.) -/
def runEvalsCore (current : List TestResult) (baseline : Option (List TestResult))
    (ciMode : Bool) : EvalOutcome :=
  let tally := tallyResults current
  let regressions : Nat :=
    match baseline with
    | some b => (compareWithBaselineResults b current).newFailures.length
    | none => 0
  { passed := tally.1
    failed := tally.2
    regressions := regressions
    exitCode := if ciMode = true ∧ (0 < tally.2 ∨ 0 < regressions) then 1 else 0 }

theorem tallyResults_failed_aux (rs : List TestResult) (acc : Nat × Nat) :
    ((rs.foldl
      (fun acc r => if r.status = "passed" then (acc.1 + 1, acc.2) else (acc.1, acc.2 + 1))
      acc).2 = acc.2 ∧ ∀ r ∈ rs, r.status = "passed")
    ∨ ((rs.foldl
      (fun acc r => if r.status = "passed" then (acc.1 + 1, acc.2) else (acc.1, acc.2 + 1))
      acc).2 > acc.2 ∧ ¬ ∀ r ∈ rs, r.status = "passed") := by
  induction rs generalizing acc with
  | nil => simp
  | cons r rest ih =>
    rw [List.foldl_cons]
    by_cases h : r.status = "passed"
    · rcases ih (if r.status = "passed" then (acc.1 + 1, acc.2) else (acc.1, acc.2 + 1)) with
        ⟨h1, h2⟩ | ⟨h1, h2⟩
      · left
        refine ⟨?_, ?_⟩
        · rw [h1, if_pos h]
        · intro x hx
          rcases List.mem_cons.mp hx with hx | hx
          · rw [hx]; exact h
          · exact h2 x hx
      · right
        refine ⟨?_, ?_⟩
        · rw [if_pos h]
          rw [if_pos h] at h1
          exact h1
        · intro hall
          exact h2 (fun x hx => hall x (List.mem_cons_of_mem r hx))
    · right
      rcases ih (if r.status = "passed" then (acc.1 + 1, acc.2) else (acc.1, acc.2 + 1)) with
        ⟨h1, h2⟩ | ⟨h1, h2⟩
      · refine ⟨?_, ?_⟩
        · rw [h1, if_neg h]; exact Nat.lt_succ_self acc.2
        · intro hall; exact h (hall r (List.mem_cons_self r rest))
      · refine ⟨?_, ?_⟩
        · rw [if_neg h]
          rw [if_neg h] at h1
          exact Nat.lt_trans (Nat.lt_succ_self acc.2) h1
        · intro hall; exact h (hall r (List.mem_cons_self r rest))

/-- The `Failed` tally is zero exactly when every result passed. -/
theorem tallyResults_failed_eq_zero_iff (rs : List TestResult) :
    (tallyResults rs).2 = 0 ↔ ∀ r ∈ rs, r.status = "passed" := by
  rw [tallyResults]
  rcases tallyResults_failed_aux rs (0, 0) with ⟨h1, h2⟩ | ⟨h1, h2⟩
  · simp only [h1]
    exact ⟨fun _ => h2, fun _ => trivial⟩
  · constructor
    · intro h0; omega
    · intro hall; exact absurd hall h2

/-- Claim C2: in CI mode (with a readable baseline) the exit code is 0
exactly when no test failed and the comparison reports no new failures,
and 1 otherwise; the regression count driving the decision is the length
of the comparison's new-failures list, and "no test failed" means every
current result has status `passed`. -/
theorem runEvals_ci_exit_code (current baseline : List TestResult) :
    ((runEvalsCore current (some baseline) true).exitCode = 0 ↔
      (runEvalsCore current (some baseline) true).failed = 0 ∧
        (compareWithBaselineResults baseline current).newFailures = [])
    ∧ ((runEvalsCore current (some baseline) true).exitCode = 0 ∨
        (runEvalsCore current (some baseline) true).exitCode = 1)
    ∧ (runEvalsCore current (some baseline) true).regressions =
        (compareWithBaselineResults baseline current).newFailures.length
    ∧ ((runEvalsCore current (some baseline) true).failed = 0 ↔
        ∀ r ∈ current, r.status = "passed") := by
  have hexit : (runEvalsCore current (some baseline) true).exitCode =
      if 0 < (tallyResults current).2 ∨
          0 < (compareWithBaselineResults baseline current).newFailures.length
      then 1 else 0 := by
    simp [runEvalsCore]
  have hfail : (runEvalsCore current (some baseline) true).failed =
      (tallyResults current).2 := rfl
  refine ⟨?_, ?_, rfl, ?_⟩
  · rw [hexit, hfail]
    by_cases h : (0 < (tallyResults current).2 ∨
        0 < (compareWithBaselineResults baseline current).newFailures.length)
    · rw [if_pos h]
      constructor
      · intro h0; exact absurd h0 one_ne_zero
      · rintro ⟨h1, h2⟩
        rcases h with h | h
        · omega
        · rw [h2] at h; simp at h
    · rw [if_neg h]
      push_neg at h
      constructor
      · intro _
        refine ⟨by omega, ?_⟩
        have h2 := h.2
        rw [← List.length_eq_zero]
        omega
      · intro _
        trivial
  · rw [hexit]
    split <;> simp
  · rw [hfail]
    exact tallyResults_failed_eq_zero_iff current

/-! ## Header redaction (`flattenHeaders`) -/

/-- The sensitive-key test of `flattenHeaders`: the key, lowercased,
is `authorization`, `x-api-key` or `api-key`. -/
def isSensitiveHeader (key : String) : Bool :=
  let lowerKey := key.toLower
  lowerKey == "authorization" || lowerKey == "x-api-key" || lowerKey == "api-key"

/-- Kernel-evaluable form of `isSensitiveHeader` (`String.toLower` itself
is defined by well-founded recursion over byte positions and does not
reduce definitionally). -/
theorem isSensitiveHeader_eq (key : String) :
    isSensitiveHeader key =
      (let lowerKey := String.mk (key.data.map Char.toLower)
       lowerKey == "authorization" || lowerKey == "x-api-key" || lowerKey == "api-key") := by
  rw [isSensitiveHeader, String.toLower, String.map_eq]

/-- `flattenHeaders` from `cmd/trace.go`: collapse an `http.Header`
(map from key to value list; Go map keys are unique) into a map from key
to a single string, storing the fixed placeholder for sensitive keys and
the comma-joined value list otherwise. -/
def flattenHeaders (h : List (String × List String)) : List (String × String) :=
  h.map (fun kv =>
    if isSensitiveHeader kv.1 then (kv.1, "[REDACTED]")
    else (kv.1, String.intercalate ", " kv.2))

/-- Claim C3 (amended): every sensitive key of the incoming header map is
stored with the fixed placeholder value `[REDACTED]`, and every value
occurring in the stored map is either the placeholder or the joined
value list of some non-sensitive incoming header.  (A sensitive header's
original value can therefore survive only when some non-sensitive header
independently carries the same value.) -/
theorem flattenHeaders_redacts (h : List (String × List String)) :
    (∀ key values, (key, values) ∈ h → isSensitiveHeader key = true →
      (key, "[REDACTED]") ∈ flattenHeaders h)
    ∧ (∀ kv ∈ flattenHeaders h,
      kv.2 = "[REDACTED]" ∨
        ∃ key values, (key, values) ∈ h ∧ isSensitiveHeader key = false ∧
          kv.2 = String.intercalate ", " values) := by
  constructor
  · intro key values hmem hsens
    rw [flattenHeaders]
    refine List.mem_map.mpr ⟨(key, values), hmem, ?_⟩
    rw [if_pos hsens]
  · intro kv hkv
    rcases List.mem_map.mp hkv with ⟨⟨key, values⟩, hmem, heq⟩
    cases hsens : isSensitiveHeader key with
    | true =>
      left
      rw [← heq]
      simp [hsens]
    | false =>
      right
      refine ⟨key, values, hmem, hsens, ?_⟩
      rw [← heq]
      simp [hsens]

/-- Claim C3, counterexample to the claim as stated: the incoming map
carries the sensitive key `Authorization` with value `secret`, and a
non-sensitive key `X-Other` with the same value; `Authorization` itself
is redacted, yet the original value `secret` still occurs among the
stored values. -/
theorem flattenHeaders_value_can_survive :
    isSensitiveHeader "Authorization" = true
    ∧ flattenHeaders [("Authorization", ["secret"]), ("X-Other", ["secret"])] =
        [("Authorization", "[REDACTED]"), ("X-Other", "secret")]
    ∧ "secret" ∈ (flattenHeaders
        [("Authorization", ["secret"]), ("X-Other", ["secret"])]).map
        (fun kv => kv.2) := by
  refine ⟨?_, ?_, ?_⟩
  · rw [isSensitiveHeader_eq]; decide
  · simp only [flattenHeaders, isSensitiveHeader_eq]; decide
  · simp only [flattenHeaders, isSensitiveHeader_eq]; decide

/-- Witness for C3: the redacted entry produced from a concrete header map. -/
theorem flattenHeaders_redacts_witness :
    ("Authorization", "[REDACTED]") ∈
      flattenHeaders [("Authorization", ["Bearer secret123"])] :=
  (flattenHeaders_redacts [("Authorization", ["Bearer secret123"])]).1
    "Authorization" ["Bearer secret123"] (by decide)
    (by rw [isSensitiveHeader_eq]; decide)

/-! ## Body sanitization (`sanitizeBody`)

`json.Marshal` applied to a Go string produces a double-quoted JSON
string with `encoding/json`'s escaping (HTML-escaping enabled):
`"` and `\` get a backslash escape, newline, carriage return and tab get
their two-character escapes, remaining control characters below U+0020
as well as `<`, `>`, `&` become `\u00xx`, U+2028/U+2029 become
a `\u202` escape, and every other character is emitted verbatim.
`jsonQuote` below reproduces this character by character; it is the
restriction of the encoder to valid-UTF-8 payloads.  The byte-level
encoder, including what `json.Marshal` does to bytes that are not valid
UTF-8, follows after the provider-independent claims. -/

/-- Lower-case hexadecimal digit for `n < 16`, as emitted by the Go
encoder's `"0123456789abcdef"` table. -/
def hexDigit (n : Nat) : Char :=
  if n < 10 then Char.ofNat (48 + n) else Char.ofNat (87 + n)

/-- The escape sequence `encoding/json` emits for one character. -/
def escapeChar (c : Char) : List Char :=
  if c = '"' then ['\\', '"']
  else if c = '\\' then ['\\', '\\']
  else if c = '\n' then ['\\', 'n']
  else if c = '\r' then ['\\', 'r']
  else if c = '\t' then ['\\', 't']
  else if c.toNat < 32 ∨ c = '<' ∨ c = '>' ∨ c = '&' then
    ['\\', 'u', '0', '0', hexDigit (c.toNat / 16), hexDigit (c.toNat % 16)]
  else if c.toNat = 8232 ∨ c.toNat = 8233 then
    ['\\', 'u', '2', '0', '2', hexDigit (c.toNat % 16)]
  else [c]

/-- `json.Marshal(string(body))`: the body wrapped in double quotes with
each character escaped. -/
def jsonQuote (s : String) : String :=
  String.mk ('"' :: (s.data.map escapeChar).flatten ++ ['"'])

/-- `sanitizeBody` from `cmd/trace.go`: an empty body is stored as `nil`
(the JSON field is omitted); a body that `json.Unmarshal` rejects is
stored as the JSON-quoted string of the body; a body that parses is
stored verbatim. -/
def sanitizeBody (jsonParse : String → Option Json) (body : String) :
    Option String :=
  if body = "" then none
  else
    match jsonParse body with
    | none => some (jsonQuote body)
    | some _ => some body

/-- Value of a lower-case hexadecimal digit character. -/
def hexDigitVal (c : Char) : Option Nat :=
  if 48 ≤ c.toNat ∧ c.toNat ≤ 57 then some (c.toNat - 48)
  else if 97 ≤ c.toNat ∧ c.toNat ≤ 102 then some (c.toNat - 87)
  else none

def hex4 (a b c d : Char) : Option Nat :=
  match hexDigitVal a, hexDigitVal b, hexDigitVal c, hexDigitVal d with
  | some va, some vb, some vc, some vd =>
    some (va * 4096 + vb * 256 + vc * 16 + vd)
  | _, _, _, _ => none

/-- Decoder for the escaped character stream: recovers the code points
of the original characters.  Only used to prove that `jsonQuote` loses
no information. -/
def unescapeCodes : List Char → Option (List Nat)
  | [] => some []
  | x :: rest =>
    if x = '\\' then
      match rest with
      | [] => none
      | y :: t =>
        if y = '"' then (unescapeCodes t).map (fun cs => 34 :: cs)
        else if y = '\\' then (unescapeCodes t).map (fun cs => 92 :: cs)
        else if y = 'n' then (unescapeCodes t).map (fun cs => 10 :: cs)
        else if y = 'r' then (unescapeCodes t).map (fun cs => 13 :: cs)
        else if y = 't' then (unescapeCodes t).map (fun cs => 9 :: cs)
        else if y = 'u' then
          match t with
          | a :: b :: c :: d :: t2 =>
            match hex4 a b c d with
            | some n => (unescapeCodes t2).map (fun cs => n :: cs)
            | none => none
          | _ => none
        else none
    else (unescapeCodes rest).map (fun cs => x.toNat :: cs)

theorem hexDigitVal_hexDigit (k : Nat) (hk : k < 16) :
    hexDigitVal (hexDigit k) = some k := by
  interval_cases k <;> decide

theorem unescape_dquote (t : List Char) :
    unescapeCodes ('\\' :: '"' :: t) = (unescapeCodes t).map (fun cs => 34 :: cs) := by
  rw [unescapeCodes.eq_def]; rfl

theorem unescape_bslash (t : List Char) :
    unescapeCodes ('\\' :: '\\' :: t) = (unescapeCodes t).map (fun cs => 92 :: cs) := by
  rw [unescapeCodes.eq_def]; rfl

theorem unescape_nl (t : List Char) :
    unescapeCodes ('\\' :: 'n' :: t) = (unescapeCodes t).map (fun cs => 10 :: cs) := by
  rw [unescapeCodes.eq_def]; rfl

theorem unescape_cr (t : List Char) :
    unescapeCodes ('\\' :: 'r' :: t) = (unescapeCodes t).map (fun cs => 13 :: cs) := by
  rw [unescapeCodes.eq_def]; rfl

theorem unescape_tab (t : List Char) :
    unescapeCodes ('\\' :: 't' :: t) = (unescapeCodes t).map (fun cs => 9 :: cs) := by
  rw [unescapeCodes.eq_def]; rfl

theorem unescape_hexu (a b c d : Char) (t : List Char) :
    unescapeCodes ('\\' :: 'u' :: a :: b :: c :: d :: t) =
      match hex4 a b c d with
      | some n => (unescapeCodes t).map (fun cs => n :: cs)
      | none => none := by
  rw [unescapeCodes.eq_def]; rfl

theorem unescape_lit (x : Char) (hx : ¬ x = '\\') (t : List Char) :
    unescapeCodes (x :: t) = (unescapeCodes t).map (fun cs => x.toNat :: cs) := by
  rw [unescapeCodes.eq_def]
  dsimp only
  rw [if_neg hx]

theorem unescape_escape (c : Char) (rest : List Char) :
    unescapeCodes (escapeChar c ++ rest) =
      (unescapeCodes rest).map (fun cs => c.toNat :: cs) := by
  rw [escapeChar]
  by_cases h1 : c = '"'
  · subst h1; exact unescape_dquote rest
  rw [if_neg h1]
  by_cases h2 : c = '\\'
  · subst h2; exact unescape_bslash rest
  rw [if_neg h2]
  by_cases h3 : c = '\n'
  · subst h3; exact unescape_nl rest
  rw [if_neg h3]
  by_cases h4 : c = '\r'
  · subst h4; exact unescape_cr rest
  rw [if_neg h4]
  by_cases h5 : c = '\t'
  · subst h5; exact unescape_tab rest
  rw [if_neg h5]
  by_cases h6 : c.toNat < 32 ∨ c = '<' ∨ c = '>' ∨ c = '&'
  · rw [if_pos h6]
    have hlt : c.toNat < 256 := by
      rcases h6 with h | h | h | h
      · omega
      all_goals subst h; decide
    have hdiv : c.toNat / 16 < 16 := by omega
    have hmod : c.toNat % 16 < 16 := by omega
    rw [List.cons_append, List.cons_append, List.cons_append, List.cons_append,
      List.cons_append, List.cons_append, List.nil_append, unescape_hexu]
    rw [hex4, hexDigitVal_hexDigit _ hdiv, hexDigitVal_hexDigit _ hmod]
    rw [show hexDigitVal '0' = some 0 from by decide]
    dsimp only
    rw [show (0 : Nat) * 4096 + 0 * 256 + c.toNat / 16 * 16 + c.toNat % 16 = c.toNat
      from by omega]
  rw [if_neg h6]
  by_cases h7 : c.toNat = 8232 ∨ c.toNat = 8233
  · rw [if_pos h7]
    rw [List.cons_append, List.cons_append, List.cons_append, List.cons_append,
      List.cons_append, List.cons_append, List.nil_append, unescape_hexu]
    rcases h7 with h | h
    · rw [h, show hex4 '2' '0' '2' (hexDigit (8232 % 16)) = some 8232 from by decide]
    · rw [h, show hex4 '2' '0' '2' (hexDigit (8233 % 16)) = some 8233 from by decide]
  rw [if_neg h7]
  rw [List.cons_append, List.nil_append]
  exact unescape_lit c h2 rest

theorem unescape_escList (l : List Char) :
    unescapeCodes ((l.map escapeChar).flatten) = some (l.map Char.toNat) := by
  induction l with
  | nil => rfl
  | cons c l ih =>
    rw [List.map_cons, List.flatten_cons, unescape_escape, ih, Option.map_some',
      List.map_cons]

/-- `jsonQuote` is injective on Unicode strings: the character-level
(valid-UTF-8) restriction of the encoder loses no information.  The
byte-level encoder below is not injective — see
`sanitizeBodyBytes_invalid_utf8_collision`. -/
theorem jsonQuote_injective (b1 b2 : String) (h : jsonQuote b1 = jsonQuote b2) :
    b1 = b2 := by
  have hd : ('"' :: (b1.data.map escapeChar).flatten ++ ['"']) =
      ('"' :: (b2.data.map escapeChar).flatten ++ ['"']) := congrArg String.data h
  have h2 := (List.cons.inj hd).2
  have h3 := (List.append_inj' h2 rfl).1
  have h4 : some (b1.data.map Char.toNat) = some (b2.data.map Char.toNat) := by
    rw [← unescape_escList, ← unescape_escList, h3]
  have h5 := Option.some.inj h4
  have h6 : b1.data = b2.data :=
    List.map_injective_iff.mpr (fun x y hxy => Char.ext (UInt32.ext hxy)) h5
  cases b1; cases b2; exact congrArg String.mk h6

/-- Claim C10: the stored body is absent (the `nil` raw message, an
omitted JSON field) exactly when the incoming body is empty; in
particular an empty body is never stored as an empty string or as any
JSON value, and a non-empty body is never dropped. -/
theorem sanitizeBody_eq_none_iff (jsonParse : String → Option Json) (body : String) :
    sanitizeBody jsonParse body = none ↔ body = "" := by
  rw [sanitizeBody]
  by_cases h : body = ""
  · simp [h]
  · rw [if_neg h]
    cases jsonParse body <;> simp [h]

/-! ## Byte-level body sanitization

`sanitizeBody` in Go operates on a `[]byte`, and `json.Marshal` coerces
a Go string to valid UTF-8: scanning the body, an ASCII byte follows the
escape rules, a valid multi-byte UTF-8 sequence is copied verbatim
(U+2028/U+2029 escaped), and a byte that does not begin a valid sequence
— invalid lead byte, out-of-range continuation byte, or truncated tail —
is replaced by the literal six-byte escape for the replacement character
while scanning resumes at the next byte.  The model below works on bytes
(`Nat`, values < 256 in every reachable state); decimal byte values are
used throughout (34 `"` 92 `\` 117 `u`). -/

/-- Hexadecimal digit byte for `n < 16` (`"0123456789abcdef"`). -/
def hexByte (n : Nat) : Nat :=
  if n < 10 then 48 + n else 87 + n

/-- The escape `encoding/json` emits for one ASCII byte: two-byte
escapes for `"`, `\`, newline, carriage return, tab; a `\u00` escape
for the remaining control bytes and for `<`, `>`, `&` (HTML escaping);
the byte itself otherwise. -/
def asciiEscape (b : Nat) : List Nat :=
  if b = 34 then [92, 34]
  else if b = 92 then [92, 92]
  else if b = 10 then [92, 110]
  else if b = 13 then [92, 114]
  else if b = 9 then [92, 116]
  else if b < 32 ∨ b = 60 ∨ b = 62 ∨ b = 38 then
    [92, 117, 48, 48, hexByte (b / 16), hexByte (b % 16)]
  else [b]

/-- Lower bound for the first continuation byte, per lead byte (the
acceptance ranges of `unicode/utf8`: no overlong forms). -/
def b1lo (lead : Nat) : Nat :=
  if lead = 224 then 160 else if lead = 240 then 144 else 128

/-- Upper bound for the first continuation byte, per lead byte (no
surrogates, nothing above U+10FFFF). -/
def b1hi (lead : Nat) : Nat :=
  if lead = 237 then 159 else if lead = 244 then 143 else 191

/-- The literal escape the encoder writes for a byte that does not start
a valid UTF-8 encoding: the six ASCII bytes of the replacement-character
escape. -/
def replEsc : List Nat := [92, 117, 102, 102, 102, 100]

/-- Output for one decoded rune: U+2028 and U+2029 become a `\u202`
escape, any other rune's source bytes are copied verbatim. -/
def runeChunk (cp : Nat) (bytes : List Nat) : List Nat :=
  if cp = 8232 ∨ cp = 8233 then [92, 117, 50, 48, 50, hexByte (cp % 16)] else bytes

/-- One step of the byte-level string encoder of `encoding/json` (HTML
escaping on), at byte `b` with remaining input `bs`: the emitted chunk
and the number of bytes consumed from `bs`.  An ASCII byte goes through
`asciiEscape`; a valid 2/3/4-byte UTF-8 sequence (lead 0xC2–0xDF,
0xE0–0xEF, 0xF0–0xF4 with continuation bytes in the acceptance ranges)
is decoded and emitted via `runeChunk`, consuming its continuation
bytes; any other byte yields the replacement escape and scanning
resumes at the very next byte (nothing further is consumed). -/
def escStep (b : Nat) (bs : List Nat) : List Nat × Nat :=
  if b < 128 then (asciiEscape b, 0)
  else if 194 ≤ b ∧ b ≤ 223 then
    match bs with
    | b1 :: _ =>
      if b1lo b ≤ b1 ∧ b1 ≤ b1hi b then
        (runeChunk ((b - 192) * 64 + (b1 - 128)) [b, b1], 1)
      else (replEsc, 0)
    | [] => (replEsc, 0)
  else if 224 ≤ b ∧ b ≤ 239 then
    match bs with
    | b1 :: b2 :: _ =>
      if (b1lo b ≤ b1 ∧ b1 ≤ b1hi b) ∧ (128 ≤ b2 ∧ b2 ≤ 191) then
        (runeChunk ((b - 224) * 4096 + (b1 - 128) * 64 + (b2 - 128)) [b, b1, b2], 2)
      else (replEsc, 0)
    | _ => (replEsc, 0)
  else if 240 ≤ b ∧ b ≤ 244 then
    match bs with
    | b1 :: b2 :: b3 :: _ =>
      if (b1lo b ≤ b1 ∧ b1 ≤ b1hi b) ∧ (128 ≤ b2 ∧ b2 ≤ 191) ∧
          (128 ≤ b3 ∧ b3 ≤ 191) then
        (runeChunk
          ((b - 240) * 262144 + (b1 - 128) * 4096 + (b2 - 128) * 64 + (b3 - 128))
          [b, b1, b2, b3], 3)
      else (replEsc, 0)
    | _ => (replEsc, 0)
  else (replEsc, 0)

/-- The byte-level string encoder: iterate `escStep` over the input,
dropping the continuation bytes each step consumed. -/
def escapeBytes : List Nat → List Nat
  | [] => []
  | b :: bs => (escStep b bs).1 ++ escapeBytes (bs.drop (escStep b bs).2)
termination_by l => l.length
decreasing_by simp only [List.length_drop, List.length_cons]; omega

/-- `json.Marshal` of the body coerced to a Go string: double quotes
around the escaped bytes. -/
def jsonQuoteBytes (body : List Nat) : List Nat :=
  34 :: escapeBytes body ++ [34]

/-- `sanitizeBody` at byte granularity: the same branch structure as the
`String`-level model, with `json.Marshal(string(body))` modelled by
`jsonQuoteBytes`. -/
def sanitizeBodyBytes (jsonParse : List Nat → Option Json) (body : List Nat) :
    Option (List Nat) :=
  if body = [] then none
  else
    match jsonParse body with
    | none => some (jsonQuoteBytes body)
    | some _ => some body

/-- The UTF-8 encoding of one Unicode scalar value. -/
def utf8EncodeChar (c : Char) : List Nat :=
  if c.toNat < 128 then [c.toNat]
  else if c.toNat < 2048 then [192 + c.toNat / 64, 128 + c.toNat % 64]
  else if c.toNat < 65536 then
    [224 + c.toNat / 4096, 128 + (c.toNat / 64) % 64, 128 + c.toNat % 64]
  else
    [240 + c.toNat / 262144, 128 + (c.toNat / 4096) % 64, 128 + (c.toNat / 64) % 64,
      128 + c.toNat % 64]

/-- The bytes of a valid-UTF-8 payload, given by its decoded string. -/
def utf8Encode (s : String) : List Nat :=
  (s.data.map utf8EncodeChar).flatten

/-- The chunk the byte-level encoder emits for one character of a
valid-UTF-8 payload. -/
def escapeCharBytes (c : Char) : List Nat :=
  if c.toNat < 128 then asciiEscape c.toNat
  else if c.toNat = 8232 ∨ c.toNat = 8233 then
    [92, 117, 50, 48, 50, hexByte (c.toNat % 16)]
  else utf8EncodeChar c

/-- Value of a lower-case hexadecimal digit byte. -/
def hexValByte (b : Nat) : Option Nat :=
  if 48 ≤ b ∧ b ≤ 57 then some (b - 48)
  else if 97 ≤ b ∧ b ≤ 102 then some (b - 87)
  else none

/-- One backslash escape of the encoder's output, decoded from the bytes
after the backslash: the recovered code point and the number of bytes
consumed (1 for a two-character escape, 5 for a `\u` escape). -/
def decodeEsc : List Nat → Option (Nat × Nat)
  | [] => none
  | y :: t =>
    if y = 34 then some (34, 1)
    else if y = 92 then some (92, 1)
    else if y = 110 then some (10, 1)
    else if y = 114 then some (13, 1)
    else if y = 116 then some (9, 1)
    else if y = 117 then
      match t with
      | h1 :: h2 :: h3 :: h4 :: _ =>
        match hexValByte h1, hexValByte h2, hexValByte h3, hexValByte h4 with
        | some v1, some v2, some v3, some v4 =>
          some (v1 * 4096 + v2 * 256 + v3 * 16 + v4, 5)
        | _, _, _, _ => none
      | _ => none
    else none

/-- One step of the decoder at byte `b` with remaining input `rest`:
the recovered code point and the number of bytes consumed from `rest`
(a backslash defers to `decodeEsc`, a multi-byte lead swallows its
continuation bytes). -/
def unescStep (b : Nat) (rest : List Nat) : Option (Nat × Nat) :=
  if b = 92 then decodeEsc rest
  else if b < 128 then some (b, 0)
  else if b ≤ 223 then
    match rest with
    | b1 :: _ => some ((b - 192) * 64 + (b1 - 128), 1)
    | [] => none
  else if b ≤ 239 then
    match rest with
    | b1 :: b2 :: _ => some ((b - 224) * 4096 + (b1 - 128) * 64 + (b2 - 128), 2)
    | _ => none
  else
    match rest with
    | b1 :: b2 :: b3 :: _ =>
      some ((b - 240) * 262144 + (b1 - 128) * 4096 + (b2 - 128) * 64 + (b3 - 128), 3)
    | _ => none

/-- Decoder for the encoder's output on valid-UTF-8 payloads: recovers
the code points by iterating `unescStep`.  Only used to prove that the
quoted form of a valid-UTF-8 payload determines the payload. -/
def unescapeBytes : List Nat → Option (List Nat)
  | [] => some []
  | b :: rest =>
    match unescStep b rest with
    | some ck => (unescapeBytes (rest.drop ck.2)).map (fun cs => ck.1 :: cs)
    | none => none
termination_by l => l.length
decreasing_by simp only [List.length_drop, List.length_cons]; omega

theorem hexValByte_hexByte (k : Nat) (hk : k < 16) :
    hexValByte (hexByte k) = some k := by
  rw [hexByte]
  by_cases h : k < 10
  · rw [if_pos h, hexValByte, if_pos (by omega)]
    congr 1
    omega
  · rw [if_neg h, hexValByte, if_neg (by omega), if_pos (by omega)]
    congr 1
    omega

theorem escapeBytes_nil : escapeBytes [] = [] := by
  rw [escapeBytes.eq_def]

theorem escapeBytes_cons (b : Nat) (bs : List Nat) :
    escapeBytes (b :: bs) =
      (escStep b bs).1 ++ escapeBytes (bs.drop (escStep b bs).2) := by
  rw [escapeBytes.eq_def]

theorem unescapeBytes_nil : unescapeBytes [] = some [] := by
  rw [unescapeBytes.eq_def]

theorem unescapeBytes_cons (b : Nat) (rest : List Nat) :
    unescapeBytes (b :: rest) =
      match unescStep b rest with
      | some ck => (unescapeBytes (rest.drop ck.2)).map (fun cs => ck.1 :: cs)
      | none => none := by
  rw [unescapeBytes.eq_def]

theorem unescStep_hexu {a1 a2 a3 a4 v1 v2 v3 v4 : Nat} (t : List Nat)
    (e1 : hexValByte a1 = some v1) (e2 : hexValByte a2 = some v2)
    (e3 : hexValByte a3 = some v3) (e4 : hexValByte a4 = some v4) :
    unescStep 92 (117 :: a1 :: a2 :: a3 :: a4 :: t) =
      some (v1 * 4096 + v2 * 256 + v3 * 16 + v4, 5) := by
  show decodeEsc (117 :: a1 :: a2 :: a3 :: a4 :: t) = _
  rw [decodeEsc.eq_def]
  dsimp only
  rw [if_neg (by omega), if_neg (by omega), if_neg (by omega), if_neg (by omega),
    if_neg (by omega), if_pos rfl]
  rw [e1, e2, e3, e4]

theorem unescStep_ascii (b : Nat) (h92 : ¬ b = 92) (h128 : b < 128) (t : List Nat) :
    unescStep b t = some (b, 0) := by
  unfold unescStep
  rw [if_neg h92, if_pos h128]

theorem unescStep_two (b b1 : Nat) (t : List Nat) (hlo : 194 ≤ b) (hhi : b ≤ 223) :
    unescStep b (b1 :: t) = some ((b - 192) * 64 + (b1 - 128), 1) := by
  unfold unescStep
  rw [if_neg (by omega : ¬ b = 92), if_neg (by omega : ¬ b < 128), if_pos hhi]

theorem unescStep_three (b b1 b2 : Nat) (t : List Nat) (hlo : 224 ≤ b) (hhi : b ≤ 239) :
    unescStep b (b1 :: b2 :: t) =
      some ((b - 224) * 4096 + (b1 - 128) * 64 + (b2 - 128), 2) := by
  unfold unescStep
  rw [if_neg (by omega : ¬ b = 92), if_neg (by omega : ¬ b < 128),
    if_neg (by omega : ¬ b ≤ 223), if_pos hhi]

theorem unescStep_four (b b1 b2 b3 : Nat) (t : List Nat) (hlo : 240 ≤ b) :
    unescStep b (b1 :: b2 :: b3 :: t) =
      some ((b - 240) * 262144 + (b1 - 128) * 4096 + (b2 - 128) * 64 + (b3 - 128), 3) := by
  unfold unescStep
  rw [if_neg (by omega : ¬ b = 92), if_neg (by omega : ¬ b < 128),
    if_neg (by omega : ¬ b ≤ 223), if_neg (by omega : ¬ b ≤ 239)]

theorem unesc_b_dquote (t : List Nat) :
    unescapeBytes (92 :: 34 :: t) = (unescapeBytes t).map (fun cs => 34 :: cs) := by
  rw [unescapeBytes_cons]
  rfl

theorem unesc_b_bslash (t : List Nat) :
    unescapeBytes (92 :: 92 :: t) = (unescapeBytes t).map (fun cs => 92 :: cs) := by
  rw [unescapeBytes_cons]
  rfl

theorem unesc_b_nl (t : List Nat) :
    unescapeBytes (92 :: 110 :: t) = (unescapeBytes t).map (fun cs => 10 :: cs) := by
  rw [unescapeBytes_cons]
  rfl

theorem unesc_b_cr (t : List Nat) :
    unescapeBytes (92 :: 114 :: t) = (unescapeBytes t).map (fun cs => 13 :: cs) := by
  rw [unescapeBytes_cons]
  rfl

theorem unesc_b_tab (t : List Nat) :
    unescapeBytes (92 :: 116 :: t) = (unescapeBytes t).map (fun cs => 9 :: cs) := by
  rw [unescapeBytes_cons]
  rfl

theorem unesc_b_hexu {a1 a2 a3 a4 v1 v2 v3 v4 : Nat} (t : List Nat)
    (e1 : hexValByte a1 = some v1) (e2 : hexValByte a2 = some v2)
    (e3 : hexValByte a3 = some v3) (e4 : hexValByte a4 = some v4) :
    unescapeBytes (92 :: 117 :: a1 :: a2 :: a3 :: a4 :: t) =
      (unescapeBytes t).map (fun cs => (v1 * 4096 + v2 * 256 + v3 * 16 + v4) :: cs) := by
  rw [unescapeBytes_cons, unescStep_hexu t e1 e2 e3 e4]
  rfl

theorem unesc_b_ascii (b : Nat) (h92 : ¬ b = 92) (h128 : b < 128) (t : List Nat) :
    unescapeBytes (b :: t) = (unescapeBytes t).map (fun cs => b :: cs) := by
  rw [unescapeBytes_cons, unescStep_ascii b h92 h128 t]
  rfl

theorem unesc_b_two (b b1 : Nat) (t : List Nat) (hlo : 194 ≤ b) (hhi : b ≤ 223) :
    unescapeBytes (b :: b1 :: t) =
      (unescapeBytes t).map (fun cs => ((b - 192) * 64 + (b1 - 128)) :: cs) := by
  rw [unescapeBytes_cons, unescStep_two b b1 t hlo hhi]
  rfl

theorem unesc_b_three (b b1 b2 : Nat) (t : List Nat) (hlo : 224 ≤ b) (hhi : b ≤ 239) :
    unescapeBytes (b :: b1 :: b2 :: t) =
      (unescapeBytes t).map
        (fun cs => ((b - 224) * 4096 + (b1 - 128) * 64 + (b2 - 128)) :: cs) := by
  rw [unescapeBytes_cons, unescStep_three b b1 b2 t hlo hhi]
  rfl

theorem unesc_b_four (b b1 b2 b3 : Nat) (t : List Nat) (hlo : 240 ≤ b) :
    unescapeBytes (b :: b1 :: b2 :: b3 :: t) =
      (unescapeBytes t).map
        (fun cs =>
          ((b - 240) * 262144 + (b1 - 128) * 4096 + (b2 - 128) * 64 + (b3 - 128)) :: cs) := by
  rw [unescapeBytes_cons, unescStep_four b b1 b2 b3 t hlo]
  rfl

theorem escStep_ascii (b : Nat) (hb : b < 128) (t : List Nat) :
    escStep b t = (asciiEscape b, 0) := by
  unfold escStep
  rw [if_pos hb]

theorem escStep_two (b b1 : Nat) (t : List Nat) (hb : 194 ≤ b ∧ b ≤ 223)
    (hc : b1lo b ≤ b1 ∧ b1 ≤ b1hi b) :
    escStep b (b1 :: t) = (runeChunk ((b - 192) * 64 + (b1 - 128)) [b, b1], 1) := by
  unfold escStep
  rw [if_neg (by omega : ¬ b < 128), if_pos hb]
  dsimp only
  rw [if_pos hc]

theorem escStep_three (b b1 b2 : Nat) (t : List Nat) (hb : 224 ≤ b ∧ b ≤ 239)
    (hc : (b1lo b ≤ b1 ∧ b1 ≤ b1hi b) ∧ (128 ≤ b2 ∧ b2 ≤ 191)) :
    escStep b (b1 :: b2 :: t) =
      (runeChunk ((b - 224) * 4096 + (b1 - 128) * 64 + (b2 - 128)) [b, b1, b2], 2) := by
  unfold escStep
  rw [if_neg (by omega : ¬ b < 128), if_neg (by omega : ¬ (194 ≤ b ∧ b ≤ 223)), if_pos hb]
  dsimp only
  rw [if_pos hc]

theorem escStep_four (b b1 b2 b3 : Nat) (t : List Nat) (hb : 240 ≤ b ∧ b ≤ 244)
    (hc : (b1lo b ≤ b1 ∧ b1 ≤ b1hi b) ∧ (128 ≤ b2 ∧ b2 ≤ 191) ∧ (128 ≤ b3 ∧ b3 ≤ 191)) :
    escStep b (b1 :: b2 :: b3 :: t) =
      (runeChunk ((b - 240) * 262144 + (b1 - 128) * 4096 + (b2 - 128) * 64 + (b3 - 128))
        [b, b1, b2, b3], 3) := by
  unfold escStep
  rw [if_neg (by omega : ¬ b < 128), if_neg (by omega : ¬ (194 ≤ b ∧ b ≤ 223)),
    if_neg (by omega : ¬ (224 ≤ b ∧ b ≤ 239)), if_pos hb]
  dsimp only
  rw [if_pos hc]

theorem escStep_invalid (b : Nat) (t : List Nat) (hb : 245 ≤ b) :
    escStep b t = (replEsc, 0) := by
  unfold escStep
  rw [if_neg (by omega : ¬ b < 128), if_neg (by omega : ¬ (194 ≤ b ∧ b ≤ 223)),
    if_neg (by omega : ¬ (224 ≤ b ∧ b ≤ 239)), if_neg (by omega : ¬ (240 ≤ b ∧ b ≤ 244))]

theorem escB_ascii (b : Nat) (hb : b < 128) (t : List Nat) :
    escapeBytes (b :: t) = asciiEscape b ++ escapeBytes t := by
  rw [escapeBytes_cons, escStep_ascii b hb t]
  rfl

theorem escB_two (b b1 : Nat) (t : List Nat) (hb : 194 ≤ b ∧ b ≤ 223)
    (hc : b1lo b ≤ b1 ∧ b1 ≤ b1hi b) :
    escapeBytes (b :: b1 :: t) =
      runeChunk ((b - 192) * 64 + (b1 - 128)) [b, b1] ++ escapeBytes t := by
  rw [escapeBytes_cons, escStep_two b b1 t hb hc]
  dsimp only
  rw [show List.drop 1 (b1 :: t) = t from rfl]

theorem escB_three (b b1 b2 : Nat) (t : List Nat) (hb : 224 ≤ b ∧ b ≤ 239)
    (hc : (b1lo b ≤ b1 ∧ b1 ≤ b1hi b) ∧ (128 ≤ b2 ∧ b2 ≤ 191)) :
    escapeBytes (b :: b1 :: b2 :: t) =
      runeChunk ((b - 224) * 4096 + (b1 - 128) * 64 + (b2 - 128)) [b, b1, b2] ++
        escapeBytes t := by
  rw [escapeBytes_cons, escStep_three b b1 b2 t hb hc]
  dsimp only
  rw [show List.drop 2 (b1 :: b2 :: t) = t from rfl]

theorem escB_four (b b1 b2 b3 : Nat) (t : List Nat) (hb : 240 ≤ b ∧ b ≤ 244)
    (hc : (b1lo b ≤ b1 ∧ b1 ≤ b1hi b) ∧ (128 ≤ b2 ∧ b2 ≤ 191) ∧ (128 ≤ b3 ∧ b3 ≤ 191)) :
    escapeBytes (b :: b1 :: b2 :: b3 :: t) =
      runeChunk ((b - 240) * 262144 + (b1 - 128) * 4096 + (b2 - 128) * 64 + (b3 - 128))
        [b, b1, b2, b3] ++ escapeBytes t := by
  rw [escapeBytes_cons, escStep_four b b1 b2 b3 t hb hc]
  dsimp only
  rw [show List.drop 3 (b1 :: b2 :: b3 :: t) = t from rfl]

theorem escB_invalid_single (b : Nat) (hb : 245 ≤ b) :
    escapeBytes [b] = replEsc := by
  rw [escapeBytes_cons, escStep_invalid b [] hb]
  rw [List.drop_nil, escapeBytes_nil, List.append_nil]

theorem unescB_ascii_chunk (b : Nat) (hb : b < 128) (rest : List Nat) :
    unescapeBytes (asciiEscape b ++ rest) =
      (unescapeBytes rest).map (fun cs => b :: cs) := by
  rw [asciiEscape]
  by_cases h1 : b = 34
  · subst h1; rw [if_pos rfl]; exact unesc_b_dquote rest
  rw [if_neg h1]
  by_cases h2 : b = 92
  · subst h2; rw [if_pos rfl]; exact unesc_b_bslash rest
  rw [if_neg h2]
  by_cases h3 : b = 10
  · subst h3; rw [if_pos rfl]; exact unesc_b_nl rest
  rw [if_neg h3]
  by_cases h4 : b = 13
  · subst h4; rw [if_pos rfl]; exact unesc_b_cr rest
  rw [if_neg h4]
  by_cases h5 : b = 9
  · subst h5; rw [if_pos rfl]; exact unesc_b_tab rest
  rw [if_neg h5]
  by_cases h6 : b < 32 ∨ b = 60 ∨ b = 62 ∨ b = 38
  · rw [if_pos h6]
    rw [List.cons_append, List.cons_append, List.cons_append, List.cons_append,
      List.cons_append, List.cons_append, List.nil_append]
    have e0 : hexValByte 48 = some 0 := by decide
    rw [unesc_b_hexu rest e0 e0 (hexValByte_hexByte _ (by omega : b / 16 < 16))
      (hexValByte_hexByte _ (by omega : b % 16 < 16))]
    rw [show (0 : Nat) * 4096 + 0 * 256 + b / 16 * 16 + b % 16 = b from by omega]
  rw [if_neg h6]
  rw [List.cons_append, List.nil_append]
  exact unesc_b_ascii b h2 hb rest

theorem unescapeBytes_chunk (c : Char) (rest : List Nat) :
    unescapeBytes (escapeCharBytes c ++ rest) =
      (unescapeBytes rest).map (fun cs => c.toNat :: cs) := by
  rw [escapeCharBytes]
  by_cases h1 : c.toNat < 128
  · rw [if_pos h1]
    exact unescB_ascii_chunk c.toNat h1 rest
  rw [if_neg h1]
  by_cases h2 : c.toNat = 8232 ∨ c.toNat = 8233
  · rw [if_pos h2]
    rw [List.cons_append, List.cons_append, List.cons_append, List.cons_append,
      List.cons_append, List.cons_append, List.nil_append]
    have e0 : hexValByte 48 = some 0 := by decide
    have e2 : hexValByte 50 = some 2 := by decide
    rw [unesc_b_hexu rest e2 e0 e2
      (hexValByte_hexByte _ (by omega : c.toNat % 16 < 16))]
    rw [show (2 : Nat) * 4096 + 0 * 256 + 2 * 16 + c.toNat % 16 = c.toNat from by omega]
  rw [if_neg h2]
  rw [utf8EncodeChar, if_neg h1]
  by_cases h3 : c.toNat < 2048
  · rw [if_pos h3]
    rw [List.cons_append, List.cons_append, List.nil_append]
    rw [unesc_b_two _ _ _ (by omega) (by omega)]
    rw [show (192 + c.toNat / 64 - 192) * 64 + (128 + c.toNat % 64 - 128) = c.toNat
      from by omega]
  rw [if_neg h3]
  by_cases h4 : c.toNat < 65536
  · rw [if_pos h4]
    rw [List.cons_append, List.cons_append, List.cons_append, List.nil_append]
    rw [unesc_b_three _ _ _ _ (by omega) (by omega)]
    rw [show (224 + c.toNat / 4096 - 224) * 4096 + (128 + (c.toNat / 64) % 64 - 128) * 64 +
        (128 + c.toNat % 64 - 128) = c.toNat from by omega]
  rw [if_neg h4]
  rw [List.cons_append, List.cons_append, List.cons_append, List.cons_append,
    List.nil_append]
  rw [unesc_b_four _ _ _ _ _ (by omega)]
  rw [show (240 + c.toNat / 262144 - 240) * 262144 +
      (128 + (c.toNat / 4096) % 64 - 128) * 4096 +
      (128 + (c.toNat / 64) % 64 - 128) * 64 + (128 + c.toNat % 64 - 128) = c.toNat
    from by omega]

theorem escapeBytes_chunk (c : Char) (rest : List Nat) :
    escapeBytes (utf8EncodeChar c ++ rest) = escapeCharBytes c ++ escapeBytes rest := by
  have hv : c.toNat < 55296 ∨ (57343 < c.toNat ∧ c.toNat < 1114112) := c.valid
  rw [utf8EncodeChar, escapeCharBytes]
  by_cases h1 : c.toNat < 128
  · rw [if_pos h1, if_pos h1, List.cons_append, List.nil_append]
    exact escB_ascii c.toNat h1 rest
  rw [if_neg h1, if_neg h1]
  by_cases h3 : c.toNat < 2048
  · rw [if_pos h3, if_neg (by omega : ¬ (c.toNat = 8232 ∨ c.toNat = 8233))]
    have hc : b1lo (192 + c.toNat / 64) ≤ 128 + c.toNat % 64 ∧
        128 + c.toNat % 64 ≤ b1hi (192 + c.toNat / 64) := by
      rw [b1lo, b1hi]
      constructor <;> split_ifs <;> omega
    rw [List.cons_append, List.cons_append, List.nil_append]
    rw [escB_two _ _ _ (by omega) hc]
    rw [runeChunk, if_neg (by omega)]
    rw [utf8EncodeChar, if_neg h1, if_pos h3]
  rw [if_neg h3]
  by_cases h4 : c.toNat < 65536
  · rw [if_pos h4]
    have hc : (b1lo (224 + c.toNat / 4096) ≤ 128 + (c.toNat / 64) % 64 ∧
        128 + (c.toNat / 64) % 64 ≤ b1hi (224 + c.toNat / 4096)) ∧
        (128 ≤ 128 + c.toNat % 64 ∧ 128 + c.toNat % 64 ≤ 191) := by
      rw [b1lo, b1hi]
      refine ⟨⟨?_, ?_⟩, by omega, by omega⟩ <;> split_ifs <;> omega
    by_cases h2 : c.toNat = 8232 ∨ c.toNat = 8233
    · rw [if_pos h2]
      rw [List.cons_append, List.cons_append, List.cons_append, List.nil_append]
      rw [escB_three _ _ _ _ (by omega) hc]
      rw [show (224 + c.toNat / 4096 - 224) * 4096 + (128 + (c.toNat / 64) % 64 - 128) * 64 +
          (128 + c.toNat % 64 - 128) = c.toNat from by omega]
      rw [runeChunk, if_pos h2]
    · rw [if_neg h2]
      rw [List.cons_append, List.cons_append, List.cons_append, List.nil_append]
      rw [escB_three _ _ _ _ (by omega) hc]
      rw [show (224 + c.toNat / 4096 - 224) * 4096 + (128 + (c.toNat / 64) % 64 - 128) * 64 +
          (128 + c.toNat % 64 - 128) = c.toNat from by omega]
      rw [runeChunk, if_neg h2]
      rw [utf8EncodeChar, if_neg h1, if_neg h3, if_pos h4]
  rw [if_neg h4, if_neg (by omega : ¬ (c.toNat = 8232 ∨ c.toNat = 8233))]
  have hc : (b1lo (240 + c.toNat / 262144) ≤ 128 + (c.toNat / 4096) % 64 ∧
      128 + (c.toNat / 4096) % 64 ≤ b1hi (240 + c.toNat / 262144)) ∧
      (128 ≤ 128 + (c.toNat / 64) % 64 ∧ 128 + (c.toNat / 64) % 64 ≤ 191) ∧
      (128 ≤ 128 + c.toNat % 64 ∧ 128 + c.toNat % 64 ≤ 191) := by
    rw [b1lo, b1hi]
    refine ⟨⟨?_, ?_⟩, ⟨by omega, by omega⟩, by omega, by omega⟩ <;> split_ifs <;> omega
  rw [List.cons_append, List.cons_append, List.cons_append, List.cons_append,
    List.nil_append]
  rw [escB_four _ _ _ _ _ (by omega) hc]
  rw [show (240 + c.toNat / 262144 - 240) * 262144 +
      (128 + (c.toNat / 4096) % 64 - 128) * 4096 +
      (128 + (c.toNat / 64) % 64 - 128) * 64 + (128 + c.toNat % 64 - 128) = c.toNat
    from by omega]
  rw [runeChunk, if_neg (by omega)]
  rw [utf8EncodeChar, if_neg h1, if_neg h3, if_neg h4]

theorem escapeBytes_utf8Encode (l : List Char) :
    escapeBytes ((l.map utf8EncodeChar).flatten) = (l.map escapeCharBytes).flatten := by
  induction l with
  | nil => simp only [List.map_nil, List.flatten_nil]; exact escapeBytes_nil
  | cons c l ih =>
    rw [List.map_cons, List.flatten_cons, escapeBytes_chunk, ih, List.map_cons,
      List.flatten_cons]

theorem unescapeBytes_escListBytes (l : List Char) :
    unescapeBytes ((l.map escapeCharBytes).flatten) = some (l.map Char.toNat) := by
  induction l with
  | nil => simp only [List.map_nil, List.flatten_nil]; exact unescapeBytes_nil
  | cons c l ih =>
    rw [List.map_cons, List.flatten_cons, unescapeBytes_chunk, ih, Option.map_some',
      List.map_cons]

/-- On valid-UTF-8 payloads the byte-level quoting is injective: the
stored quoted form determines the payload. -/
theorem jsonQuoteBytes_utf8_injective (s1 s2 : String)
    (h : jsonQuoteBytes (utf8Encode s1) = jsonQuoteBytes (utf8Encode s2)) :
    s1 = s2 := by
  rw [jsonQuoteBytes, jsonQuoteBytes] at h
  have h2 := (List.cons.inj h).2
  have h3 := (List.append_inj' h2 rfl).1
  rw [utf8Encode, utf8Encode, escapeBytes_utf8Encode, escapeBytes_utf8Encode] at h3
  have h4 : some (s1.data.map Char.toNat) = some (s2.data.map Char.toNat) := by
    rw [← unescapeBytes_escListBytes, ← unescapeBytes_escListBytes, h3]
  have h5 := Option.some.inj h4
  have h6 : s1.data = s2.data :=
    List.map_injective_iff.mpr (fun x y hxy => Char.ext (UInt32.ext hxy)) h5
  cases s1; cases s2; exact congrArg String.mk h6

/-- Claim C7 (amended): a non-empty body that parses as JSON is stored
verbatim, byte for byte.  A non-empty body that does not parse is stored
as its JSON-quoted string; the quoted form of a valid-UTF-8 payload
determines the payload (no byte of a valid-UTF-8 payload is lost), but a
byte that does not begin a valid UTF-8 sequence is replaced by the
six-byte replacement escape, so payloads differing only in such bytes store
identically.  (The non-emptiness premises reflect that the empty input
is not well-formed JSON: `json.Unmarshal` rejects it, and the code
stores `nil` without consulting the parser.) -/
theorem sanitizeBodyBytes_preserves (jsonParse : List Nat → Option Json)
    (body : List Nat) :
    (body ≠ [] → (jsonParse body).isSome = true →
      sanitizeBodyBytes jsonParse body = some body)
    ∧ (body ≠ [] → jsonParse body = none →
      sanitizeBodyBytes jsonParse body = some (jsonQuoteBytes body))
    ∧ (∀ s1 s2 : String,
        jsonQuoteBytes (utf8Encode s1) = jsonQuoteBytes (utf8Encode s2) → s1 = s2) := by
  refine ⟨?_, ?_, jsonQuoteBytes_utf8_injective⟩
  · intro hne hsome
    rw [sanitizeBodyBytes, if_neg hne]
    cases h : jsonParse body with
    | none => rw [h] at hsome; simp at hsome
    | some j => rfl
  · intro hne hnone
    rw [sanitizeBodyBytes, if_neg hne, hnone]

/-- Witness for C7: a concrete non-JSON body is stored in quoted form. -/
theorem sanitizeBodyBytes_preserves_witness :
    sanitizeBodyBytes (fun _ => Option.none) [104] = some (jsonQuoteBytes [104]) :=
  (sanitizeBodyBytes_preserves (fun _ => Option.none) [104]).2.1 (by decide) rfl

/-- Claim C7, counterexample to the claim as stated: the two distinct
non-empty byte payloads `0xFF` and `0xFE` are both invalid UTF-8 and not
valid JSON, and both are stored as the same quoted body — the eight
bytes of the quoted replacement escape — so a byte of the payload is lost. -/
theorem sanitizeBodyBytes_invalid_utf8_collision :
    sanitizeBodyBytes (fun _ => Option.none) [255] =
      sanitizeBodyBytes (fun _ => Option.none) [254]
    ∧ ([255] : List Nat) ≠ [254]
    ∧ sanitizeBodyBytes (fun _ => Option.none) [255] =
        some [34, 92, 117, 102, 102, 102, 100, 34]
    ∧ ([255] : List Nat) ≠ [] ∧ ([254] : List Nat) ≠ [] := by
  have h255 : escapeBytes [255] = replEsc := escB_invalid_single 255 (by omega)
  have h254 : escapeBytes [254] = replEsc := escB_invalid_single 254 (by omega)
  have hq : ∀ l : List Nat, escapeBytes l = replEsc →
      sanitizeBodyBytes (fun _ => Option.none) l = some (34 :: replEsc ++ [34]) := by
    intro l hl
    rw [sanitizeBodyBytes]
    by_cases hl0 : l = []
    · rw [hl0, escapeBytes_nil] at hl
      exact absurd hl.symm (by decide)
    · rw [if_neg hl0, jsonQuoteBytes, hl]
  refine ⟨?_, by decide, ?_, by decide, by decide⟩
  · rw [hq [255] h255, hq [254] h254]
  · rw [hq [255] h255]
    rfl

/-! ## Provider parsing (`parseAPIDetails`) -/

/-- What the Go code stores in `ToolCall.Args` (`json.RawMessage`):
nothing, the raw `arguments` string taken verbatim from an OpenAI
response, or the re-marshalled `input` value of an Anthropic `tool_use`
block (`json.Marshal` cannot fail on a value produced by `Unmarshal`). -/
inductive ArgsPayload where
  | none : ArgsPayload
  | rawStr (s : String) : ArgsPayload
  | marshaled (j : Json) : ArgsPayload

/-- `ToolCall` from the source.  The `Response` field is never set by
`parseAPIDetails` and is omitted. -/
structure ToolCall where
  id : String
  name : String
  args : ArgsPayload

/-- The four return values of `parseAPIDetails`. -/
structure APIDetails where
  model : String
  tokensIn : Int
  tokensOut : Int
  toolCalls : List ToolCall

/-- The model extraction at the top of `parseAPIDetails`:
`reqData["model"].(string)`, performed before the provider switch. -/
def extractModel (reqData : Option Json) : String :=
  match jLookup (asObj reqData) "model" with
  | some (Json.str m) => m
  | _ => ""

/-- `respData["usage"].(map[string]interface{})`, the nil map on any
shape mismatch (which leaves the token counts at zero). -/
def usageOf (respFields : List (String × Json)) : List (String × Json) :=
  match jLookup respFields "usage" with
  | some (Json.obj u) => u
  | _ => []

/-- One element of the OpenAI `tool_calls` array: non-objects are
skipped; an object yields a `ToolCall` whose name/args are only filled
when the nested `function` object is present. -/
def parseOpenAIToolCall : Json → Option ToolCall
  | Json.obj tcFields =>
    match jLookup tcFields "function" with
    | some (Json.obj fnFields) =>
      some { id := getString tcFields "id"
             name := getString fnFields "name"
             args := match jLookup fnFields "arguments" with
                     | some (Json.str s) => ArgsPayload.rawStr s
                     | _ => ArgsPayload.none }
    | _ => some { id := getString tcFields "id", name := "", args := ArgsPayload.none }
  | _ => Option.none

/-- The OpenAI tool-call extraction: `choices[0].message.tool_calls`,
with every shape mismatch yielding the empty list. -/
def parseOpenAIToolCalls (respFields : List (String × Json)) : List ToolCall :=
  match jLookup respFields "choices" with
  | some (Json.arr (choice0 :: _)) =>
    match choice0 with
    | Json.obj choiceFields =>
      match jLookup choiceFields "message" with
      | some (Json.obj msgFields) =>
        match jLookup msgFields "tool_calls" with
        | some (Json.arr tcs) => tcs.filterMap parseOpenAIToolCall
        | _ => []
      | _ => []
    | _ => []
  | _ => []

/-- One element of the Anthropic `content` array: kept only when it is
an object whose `type` field is the string `tool_use`; a present `input`
field (of any shape, including null) is re-marshalled into the args. -/
def parseAnthropicToolCall : Json → Option ToolCall
  | Json.obj cFields =>
    match jLookup cFields "type" with
    | some (Json.str t) =>
      if t = "tool_use" then
        some { id := getString cFields "id"
               name := getString cFields "name"
               args := match jLookup cFields "input" with
                       | some input => ArgsPayload.marshaled input
                       | Option.none => ArgsPayload.none }
      else Option.none
    | _ => Option.none
  | _ => Option.none

def parseAnthropicToolCalls (respFields : List (String × Json)) : List ToolCall :=
  match jLookup respFields "content" with
  | some (Json.arr items) => items.filterMap parseAnthropicToolCall
  | _ => []

/-- `parseAPIDetails` from `cmd/trace.go`, taking the decoded request and
response bodies (decoding into `map[string]interface{}` fails on
non-objects, leaving the nil map).  The model name is extracted from the
request before the provider switch; the switch fills token counts and
tool calls for `openai` and `anthropic` and leaves the zero values for
every other provider tag. -/
def parseAPIDetails (provider : String) (reqData respData : Option Json) : APIDetails :=
  let respFields := asObj respData
  let model := extractModel reqData
  match provider with
  | "openai" =>
    { model := model
      tokensIn := getNum (usageOf respFields) "prompt_tokens"
      tokensOut := getNum (usageOf respFields) "completion_tokens"
      toolCalls := parseOpenAIToolCalls respFields }
  | "anthropic" =>
    { model := model
      tokensIn := getNum (usageOf respFields) "input_tokens"
      tokensOut := getNum (usageOf respFields) "output_tokens"
      toolCalls := parseAnthropicToolCalls respFields }
  | _ =>
    { model := model, tokensIn := 0, tokensOut := 0, toolCalls := [] }

/-- Claim C9 (amended): `parseAPIDetails` is a total function (it is
defined for every provider tag and every decoded request/response value,
including failed parses, and never raises), and for every provider tag
outside the known set {`openai`, `anthropic`} it returns zero token
counts and an empty tool-call list; the model name, however, is
extracted from the request body's `model` field before the provider
switch and is therefore returned for unknown providers as well (empty
only when the request carries no string `model` field). -/
theorem parseAPIDetails_unknown_provider (provider : String)
    (reqData respData : Option Json)
    (h1 : provider ≠ "openai") (h2 : provider ≠ "anthropic") :
    parseAPIDetails provider reqData respData =
      { model := extractModel reqData, tokensIn := 0, tokensOut := 0,
        toolCalls := [] } := by
  rw [parseAPIDetails.eq_def]
  split
  · exact absurd rfl h1
  · exact absurd rfl h2
  · rfl

/-- Witness for C9: the unknown provider tag `bogus` with a failed
request parse yields the all-zero record. -/
theorem parseAPIDetails_unknown_provider_witness :
    parseAPIDetails "bogus" Option.none Option.none =
      { model := extractModel Option.none, tokensIn := 0, tokensOut := 0,
        toolCalls := [] } :=
  parseAPIDetails_unknown_provider "bogus" Option.none Option.none
    (by decide) (by decide)

/-- Claim C9, counterexample to the claim as stated: for the unknown
provider tag `bogus` and a request body `{"model": "gpt-4"}` the parser
returns the model name `gpt-4`, not the empty model name the claim
requires. -/
theorem parseAPIDetails_unknown_provider_model_not_empty :
    (parseAPIDetails "bogus"
      (some (Json.obj [("model", Json.str "gpt-4")])) Option.none).model = "gpt-4"
    ∧ ("gpt-4" : String) ≠ "" := by
  exact ⟨rfl, by decide⟩

/-! ## The interception proxy (`handleRequest`, `createTrace`, `getTraces`)

The handler is modelled as a state-transition function on the proxy's
trace list.  One `ProxyEvent` is one inbound HTTP exchange: the
provider-selection header value (`""` when the header is absent, as
`http.Header.Get` reports), the request data, the upstream outcome
(`none` models a transport error from `httpClient.Do`), and the
monotonic-clock readings taken at handler entry and after the response
body has been read (`time.Since` uses the monotonic clock).  Header keys
are stored canonically, as `net/http` does.  `http.NewRequest` cannot
fail here — the URL was already parsed by `url.Parse` — so that error
path carries no behaviour and is not modelled.  The mutex around the
append and Go's goroutine scheduling only affect the interleaving
order of trace records, which none of the claims depend on, so events
are processed as a sequence. -/

/-- The upstream response as `httpClient.Do` returns it (body still
possibly gzip-compressed). -/
structure UpstreamResponse where
  statusCode : Nat
  headers : List (String × List String)
  body : String

/-- One inbound request/response exchange observed by the proxy. -/
structure ProxyEvent where
  targetHeader : String
  reqMethod : String
  reqPath : String
  reqHeaders : List (String × List String)
  reqBody : String
  upstream : Option UpstreamResponse
  startTime : Int
  endTime : Int

/-- `TraceRequest` from the source. -/
structure TraceRequest where
  method : String
  path : String
  headers : List (String × String)
  body : Option String

/-- `TraceResponse` from the source. -/
structure TraceResponse where
  statusCode : Nat
  headers : List (String × String)
  body : Option String

/-- `LLMTrace` from the source (ID, timestamp, and the never-populated
metadata map omitted; they carry no logic). -/
structure LLMTrace where
  provider : String
  endpoint : String
  model : String
  request : TraceRequest
  response : TraceResponse
  latency : Int
  toolCalls : List ToolCall
  tokensIn : Int
  tokensOut : Int

/-- What the handler writes back to the caller. -/
structure WrittenResponse where
  statusCode : Nat
  headers : List (String × List String)
  body : String

/-- Outcome of one handled request: an `http.Error` response with the
given status code, or a forwarded upstream response. -/
inductive HandleOutcome where
  | errorResponse (status : Nat) : HandleOutcome
  | forwarded (resp : WrittenResponse) : HandleOutcome

/-- `http.Header.Get`: the first value stored under the key, `""` when
the key is absent or has no values. -/
def headerGet (hs : List (String × List String)) (key : String) : String :=
  match hs.find? (fun kv => kv.1 == key) with
  | some (_, v :: _) => v
  | _ => ""

/-- `http.Header.Del`. -/
def delHeader (hs : List (String × List String)) (key : String) :
    List (String × List String) :=
  hs.filter (fun kv => !(kv.1 == key))

/-- `http.Header.Set`: replace all values of the key by the single
given value. -/
def setHeader (hs : List (String × List String)) (key value : String) :
    List (String × List String) :=
  delHeader hs key ++ [(key, [value])]

/-- The header rewrite performed before writing the response: copy the
upstream headers, delete `Content-Encoding` (the body has been
decompressed), and set `Content-Length` to the decimal byte count of the
body being written. -/
def writtenHeaders (hs : List (String × List String)) (body : String) :
    List (String × List String) :=
  setHeader (delHeader hs "Content-Encoding") "Content-Length" (toString body.length)

/-- The target-provider resolution at the top of `handleRequest`:
`X-Regrada-Target`, defaulting to `openai` when the header is absent. -/
def resolveTargetProvider (targetHeader : String) : String :=
  if targetHeader = "" then "openai" else targetHeader

/-- The provider registry `newLLMProxy` builds: `openai` first, then
`anthropic`, then `custom` when the config carries a parseable custom
base URL. -/
def providerRegistry (hasCustom : Bool) : List String :=
  ["openai", "anthropic"] ++ (if hasCustom then ["custom"] else [])

/-- `createTrace` from the source: redacted flattened headers, sanitized
bodies, millisecond latency (`time.Duration` division truncates), and
the provider-parsed details. -/
def createTrace (jsonParse : String → Option Json) (provider : String)
    (e : ProxyEvent) (u : UpstreamResponse) (respBody : String) : LLMTrace :=
  let details := parseAPIDetails provider (jsonParse e.reqBody) (jsonParse respBody)
  { provider := provider
    endpoint := e.reqPath
    model := details.model
    request := { method := e.reqMethod
                 path := e.reqPath
                 headers := flattenHeaders e.reqHeaders
                 body := sanitizeBody jsonParse e.reqBody }
    response := { statusCode := u.statusCode
                  headers := flattenHeaders u.headers
                  body := sanitizeBody jsonParse respBody }
    latency := Int.tdiv (e.endTime - e.startTime) 1000000
    toolCalls := details.toolCalls
    tokensIn := details.tokensIn
    tokensOut := details.tokensOut }

/-- The response-body read of `handleRequest`: when `Content-Encoding`
is exactly `gzip`, decompress (a stream `gzip.NewReader` rejects leaves
the nil body — the error is ignored); otherwise read the raw body. -/
def respBodyOf (gunzip : String → Option String) (u : UpstreamResponse) : String :=
  if headerGet u.headers "Content-Encoding" = "gzip" then
    match gunzip u.body with
    | some d => d
    | Option.none => ""
  else u.body

/-- `handleRequest` from the source, as a transition on the trace list:
resolve the target provider (unknown → 502, nothing recorded); on a
transport error → 502, nothing recorded; otherwise decompress a
gzip-encoded response body, append exactly one trace, and write the
upstream status with the rewritten headers and the decompressed body. -/
def handleRequest (jsonParse : String → Option Json)
    (gunzip : String → Option String) (providers : List String)
    (traces : List LLMTrace) (e : ProxyEvent) :
    List LLMTrace × HandleOutcome :=
  let targetProvider := resolveTargetProvider e.targetHeader
  if targetProvider ∈ providers then
    match e.upstream with
    | Option.none => (traces, HandleOutcome.errorResponse 502)
    | some u =>
      let responseBody := respBodyOf gunzip u
      (traces ++ [createTrace jsonParse targetProvider e u responseBody],
        HandleOutcome.forwarded
          { statusCode := u.statusCode
            headers := writtenHeaders u.headers responseBody
            body := responseBody })
  else (traces, HandleOutcome.errorResponse 502)

/-- A sequence of exchanges, threaded through the proxy's trace list;
`getTraces` returns a copy of the final list. -/
def processEvents (jsonParse : String → Option Json)
    (gunzip : String → Option String) (providers : List String)
    (traces : List LLMTrace) : List ProxyEvent → List LLMTrace
  | [] => traces
  | e :: rest =>
    processEvents jsonParse gunzip providers
      (handleRequest jsonParse gunzip providers traces e).1 rest

/-- An event the proxy forwards successfully: known provider and no
transport error. -/
def forwardedReq (providers : List String) (e : ProxyEvent) : Bool :=
  decide (resolveTargetProvider e.targetHeader ∈ providers) && e.upstream.isSome

theorem handleRequest_not_forwarded (jp : String → Option Json)
    (gz : String → Option String) (ps : List String) (ts : List LLMTrace)
    (e : ProxyEvent)
    (h : resolveTargetProvider e.targetHeader ∉ ps ∨
      e.upstream = Option.none) :
    handleRequest jp gz ps ts e = (ts, HandleOutcome.errorResponse 502) := by
  rcases h with h | h <;> simp [handleRequest, h]

theorem handleRequest_forwarded (jp : String → Option Json)
    (gz : String → Option String) (ps : List String) (ts : List LLMTrace)
    (e : ProxyEvent) (u : UpstreamResponse)
    (hc : resolveTargetProvider e.targetHeader ∈ ps)
    (hu : e.upstream = some u) :
    handleRequest jp gz ps ts e =
      (ts ++ [createTrace jp (resolveTargetProvider e.targetHeader) e u
        (respBodyOf gz u)],
       HandleOutcome.forwarded
         { statusCode := u.statusCode
           headers := writtenHeaders u.headers (respBodyOf gz u)
           body := respBodyOf gz u }) := by
  simp [handleRequest, hc, hu]

theorem handleRequest_traces_append (jp : String → Option Json)
    (gz : String → Option String) (ps : List String) (ts : List LLMTrace)
    (e : ProxyEvent) :
    (handleRequest jp gz ps ts e).1 = ts ++ (handleRequest jp gz ps [] e).1 := by
  by_cases hc : resolveTargetProvider e.targetHeader ∈ ps
  · cases hu : e.upstream with
    | none =>
      rw [handleRequest_not_forwarded jp gz ps ts e (Or.inr hu),
        handleRequest_not_forwarded jp gz ps [] e (Or.inr hu)]
      simp
    | some u =>
      rw [handleRequest_forwarded jp gz ps ts e u hc hu,
        handleRequest_forwarded jp gz ps [] e u hc hu]
      simp
  · rw [handleRequest_not_forwarded jp gz ps ts e (Or.inl hc),
      handleRequest_not_forwarded jp gz ps [] e (Or.inl hc)]
    simp

theorem handleRequest_nil_length (jp : String → Option Json)
    (gz : String → Option String) (ps : List String) (e : ProxyEvent) :
    ((handleRequest jp gz ps [] e).1).length = if forwardedReq ps e then 1 else 0 := by
  by_cases hc : resolveTargetProvider e.targetHeader ∈ ps
  · cases hu : e.upstream with
    | none =>
      rw [handleRequest_not_forwarded jp gz ps [] e (Or.inr hu)]
      simp [forwardedReq, hu]
    | some u =>
      rw [handleRequest_forwarded jp gz ps [] e u hc hu]
      simp [forwardedReq, hc, hu]
  · rw [handleRequest_not_forwarded jp gz ps [] e (Or.inl hc)]
    simp [forwardedReq, hc]

theorem handleRequest_nil_latency (jp : String → Option Json)
    (gz : String → Option String) (ps : List String) (e : ProxyEvent)
    (t : LLMTrace) (ht : t ∈ (handleRequest jp gz ps [] e).1) :
    t.latency = Int.tdiv (e.endTime - e.startTime) 1000000 := by
  by_cases hc : resolveTargetProvider e.targetHeader ∈ ps
  · cases hu : e.upstream with
    | none =>
      rw [handleRequest_not_forwarded jp gz ps [] e (Or.inr hu)] at ht
      simp at ht
    | some u =>
      rw [handleRequest_forwarded jp gz ps [] e u hc hu] at ht
      rw [List.nil_append, List.mem_singleton] at ht
      rw [ht]
      rfl
  · rw [handleRequest_not_forwarded jp gz ps [] e (Or.inl hc)] at ht
    simp at ht

theorem processEvents_append (jp : String → Option Json)
    (gz : String → Option String) (ps : List String) (ts : List LLMTrace)
    (events : List ProxyEvent) :
    processEvents jp gz ps ts events = ts ++ processEvents jp gz ps [] events := by
  induction events generalizing ts with
  | nil => simp [processEvents]
  | cons e rest ih =>
    rw [processEvents, processEvents]
    rw [ih ((handleRequest jp gz ps ts e).1), ih ((handleRequest jp gz ps [] e).1)]
    rw [handleRequest_traces_append jp gz ps ts e, List.append_assoc]

theorem processEvents_length (jp : String → Option Json)
    (gz : String → Option String) (ps : List String) (events : List ProxyEvent) :
    (processEvents jp gz ps [] events).length = events.countP (forwardedReq ps) := by
  induction events with
  | nil => rfl
  | cons e rest ih =>
    rw [processEvents, processEvents_append jp gz ps ((handleRequest jp gz ps [] e).1) rest]
    rw [List.length_append, handleRequest_nil_length jp gz ps e, ih]
    rw [List.countP_cons]
    cases hf : forwardedReq ps e
    · simp [hf]
    · simp [hf]
      omega

theorem processEvents_latency (jp : String → Option Json)
    (gz : String → Option String) (ps : List String) :
    ∀ (events : List ProxyEvent), (∀ e ∈ events, e.startTime ≤ e.endTime) →
      ∀ t ∈ processEvents jp gz ps [] events, 0 ≤ t.latency := by
  intro events
  induction events with
  | nil =>
    intro _ t ht
    simp [processEvents] at ht
  | cons e rest ih =>
    intro hclock t ht
    rw [processEvents,
      processEvents_append jp gz ps ((handleRequest jp gz ps [] e).1) rest] at ht
    rcases List.mem_append.mp ht with h | h
    · rw [handleRequest_nil_latency jp gz ps e t h]
      have hle : e.startTime ≤ e.endTime := hclock e (List.mem_cons_self e rest)
      apply Int.tdiv_nonneg <;> omega
    · exact ih (fun x hx => hclock x (List.mem_cons_of_mem e hx)) t h

/-- Claim C4: with a monotone clock, processing any event sequence
appends exactly one trace per successfully forwarded request — the
final trace count equals the number of events with a known provider and
a successful upstream exchange — every recorded trace has latency ≥ 0,
and an unknown provider selection or an upstream transport error yields
the 502 error response and appends nothing. -/
theorem proxy_traces_per_forward (jp : String → Option Json)
    (gz : String → Option String) (providers : List String)
    (events : List ProxyEvent)
    (hclock : ∀ e ∈ events, e.startTime ≤ e.endTime) :
    (processEvents jp gz providers [] events).length =
      events.countP (forwardedReq providers)
    ∧ (∀ t ∈ processEvents jp gz providers [] events, 0 ≤ t.latency)
    ∧ (∀ (traces : List LLMTrace) (e : ProxyEvent),
        resolveTargetProvider e.targetHeader ∉ providers ∨
          e.upstream = Option.none →
        handleRequest jp gz providers traces e =
          (traces, HandleOutcome.errorResponse 502)) :=
  ⟨processEvents_length jp gz providers events,
    processEvents_latency jp gz providers events hclock,
    fun traces e h => handleRequest_not_forwarded jp gz providers traces e h⟩

/-- Witness for C4: one successfully forwarded request yields exactly
one trace. -/
theorem proxy_traces_per_forward_witness :
    (processEvents (fun _ => Option.none) (fun _ => Option.none) ["openai"] []
      [{ targetHeader := "", reqMethod := "POST", reqPath := "/v1/chat",
         reqHeaders := [], reqBody := "",
         upstream := some { statusCode := 200, headers := [], body := "ok" },
         startTime := 0, endTime := 5000000 }]).length = 1 := by
  rw [(proxy_traces_per_forward (fun _ => Option.none) (fun _ => Option.none)
    ["openai"]
    [{ targetHeader := "", reqMethod := "POST", reqPath := "/v1/chat",
       reqHeaders := [], reqBody := "",
       upstream := some { statusCode := 200, headers := [], body := "ok" },
       startTime := 0, endTime := 5000000 }]
    (by intro x hx; rw [List.mem_singleton] at hx; subst hx; decide)).1]
  rfl

theorem not_mem_writtenHeaders_enc (hs : List (String × List String))
    (body : String) (vs : List String) :
    ("Content-Encoding", vs) ∉ writtenHeaders hs body := by
  intro hmem
  rw [writtenHeaders, setHeader] at hmem
  rcases List.mem_append.mp hmem with h | h
  · have h1 := (List.mem_filter.mp h).1
    have h2 := (List.mem_filter.mp h1).2
    simp at h2
  · simp at h

theorem headerGet_writtenHeaders_len (hs : List (String × List String))
    (body : String) :
    headerGet (writtenHeaders hs body) "Content-Length" = toString body.length := by
  rw [writtenHeaders, setHeader, headerGet, List.find?_append]
  have hnone : (delHeader (delHeader hs "Content-Encoding") "Content-Length").find?
      (fun kv => kv.1 == "Content-Length") = none := by
    rw [List.find?_eq_none]
    intro kv hkv
    have h2 := (List.mem_filter.mp hkv).2
    simpa using h2
  rw [hnone]
  rfl

/-- Claim C5: when the upstream response carries `Content-Encoding: gzip`
and the stream decompresses to `d`, the caller receives the forwarded
response with body `d`, with no `Content-Encoding` header, and with
`Content-Length` equal to the byte count of the decompressed body. -/
theorem proxy_gzip_decompress (jp : String → Option Json)
    (gz : String → Option String) (ps : List String) (ts : List LLMTrace)
    (e : ProxyEvent) (u : UpstreamResponse) (d : String)
    (hu : e.upstream = some u)
    (hc : resolveTargetProvider e.targetHeader ∈ ps)
    (henc : headerGet u.headers "Content-Encoding" = "gzip")
    (hgz : gz u.body = some d) :
    (handleRequest jp gz ps ts e).2 =
      HandleOutcome.forwarded
        { statusCode := u.statusCode
          headers := writtenHeaders u.headers d
          body := d }
    ∧ (∀ vs, ("Content-Encoding", vs) ∉ writtenHeaders u.headers d)
    ∧ headerGet (writtenHeaders u.headers d) "Content-Length" =
        toString d.length := by
  refine ⟨?_, fun vs => not_mem_writtenHeaders_enc u.headers d vs,
    headerGet_writtenHeaders_len u.headers d⟩
  have hbody : respBodyOf gz u = d := by
    rw [respBodyOf, if_pos henc, hgz]
  rw [handleRequest_forwarded jp gz ps ts e u hc hu, hbody]

/-- Witness for C5: concrete gzip response, `Content-Length` of the
decompressed body. -/
theorem proxy_gzip_decompress_witness :
    headerGet (writtenHeaders [("Content-Encoding", ["gzip"])] "data")
      "Content-Length" = toString ("data".length) :=
  (proxy_gzip_decompress (fun _ => Option.none) (fun _ => some "data")
    ["openai"] []
    { targetHeader := "", reqMethod := "POST", reqPath := "/v1/chat",
      reqHeaders := [], reqBody := "",
      upstream := some { statusCode := 200,
                         headers := [("Content-Encoding", ["gzip"])],
                         body := "x" },
      startTime := 0, endTime := 0 }
    { statusCode := 200, headers := [("Content-Encoding", ["gzip"])], body := "x" }
    "data" rfl (by decide) (by decide) rfl).2.2

/-- Claim C8: when the provider-selection header `X-Regrada-Target` is
absent (the empty string, as `http.Header.Get` reports), the proxy
resolves the target to `openai` — the first provider the registry is
configured with — and every trace recorded for such a request carries
provider `openai`. -/
theorem default_provider_openai (e : ProxyEvent) (he : e.targetHeader = "") :
    resolveTargetProvider e.targetHeader = "openai"
    ∧ (∀ hasCustom, (providerRegistry hasCustom).head? = some "openai")
    ∧ (∀ (jp : String → Option Json) (gz : String → Option String)
        (ps : List String) (ts : List LLMTrace) (u : UpstreamResponse),
        e.upstream = some u →
        ∀ t ∈ (handleRequest jp gz ps ts e).1, t ∈ ts ∨ t.provider = "openai") := by
  have hres : resolveTargetProvider e.targetHeader = "openai" := by
    rw [resolveTargetProvider, if_pos he]
  refine ⟨hres, fun hasCustom => by cases hasCustom <;> rfl, ?_⟩
  intro jp gz ps ts u hu t ht
  by_cases hc : resolveTargetProvider e.targetHeader ∈ ps
  · rw [handleRequest_forwarded jp gz ps ts e u hc hu] at ht
    rcases List.mem_append.mp ht with h | h
    · exact Or.inl h
    · right
      rw [List.mem_singleton] at h
      rw [h]
      show resolveTargetProvider e.targetHeader = "openai"
      exact hres
  · rw [handleRequest_not_forwarded jp gz ps ts e (Or.inl hc)] at ht
    exact Or.inl ht

/-- Witness for C8: the absent header resolves to `openai`. -/
theorem default_provider_openai_witness :
    resolveTargetProvider "" = "openai" :=
  (default_provider_openai
    { targetHeader := "", reqMethod := "GET", reqPath := "/", reqHeaders := [],
      reqBody := "", upstream := Option.none, startTime := 0, endTime := 0 }
    rfl).1

end Regrada
